import Mathlib

/-!
# Verification of the NewRelic alerts dashboard core (`app.py`)

A shallow embedding of the incident-reconciliation and metrics logic of
`app.py` (Streamlit dashboard), together with theorems settling the frozen
claims about its specification.

Modelling conventions:
* Timestamps are epoch milliseconds (`Int`), as returned by the data source
  and carried through `pd.to_datetime(..., unit="ms")` unchanged in order.
* `int(td.total_seconds())` (truncation toward zero of a millisecond
  difference divided by 1000) is modelled by `pySecondsOfMs`.
* Python f-string rendering of integers is modelled by `natStr`/`intStr`
  (standard decimal rendering, with `-` for negatives).
* Python `int(str)` is modelled by `pyInt` on the sign/digit fragment the
  pipeline can produce (leading `+`, whitespace and `_` separators are
  never produced by `format_duration`, so they are not modelled).
* Python floats are modelled by exact rationals (`ℚ`); `"{x:.0f}"`
  / `"{x:.1f}"` formatting rounds half to even, modelled by `pyRound`.
* pandas dataframes are lists of records; `groupby` over the five key
  columns drops rows with a missing (`NaN`) key component, which is
  modelled by the `Option`-valued `rowKey`.  The row order produced by
  `groupby` (pandas sorts by key) is not modelled; no claim depends on it.
-/

namespace Alerts

/-! ## Decimal rendering of numbers (Python `str`/f-string on ints) -/
/-- Decimal digits, most significant first, with explicit fuel (`fuel ≥ n`
suffices) so that the definition is structurally recursive and reduces in the
kernel. -/
def natDigitsAux : ℕ → ℕ → List Char
  | 0, n => [Nat.digitChar n]
  | fuel + 1, n =>
    if n < 10 then [Nat.digitChar n]
    else natDigitsAux fuel (n / 10) ++ [Nat.digitChar (n % 10)]

/-- Decimal digits of `n`, most significant first (mirrors how Python
renders an `int` in an f-string). -/
def natDigits (n : ℕ) : List Char := natDigitsAux n n

def natStr (n : ℕ) : String := String.mk (natDigits n)

/-- Python `str` of an `int` (decimal, `-` sign for negatives). -/
def intStr (i : ℤ) : String :=
  if i < 0 then String.mk ('-' :: natDigits i.natAbs) else natStr i.toNat

/-! ## Parsing numbers (Python `int(str)`) -/
/-- Value of a digit string read most-significant-first. -/
def digitsToNat (cs : List Char) : ℕ :=
  cs.foldl (fun a c => 10 * a + (c.toNat - 48)) 0

/-- Python `int()` on the strings this pipeline can produce: an optional
leading `-` followed by at least one decimal digit; anything else raises
(`none`). -/
def pyInt (cs : List Char) : Option ℤ :=
  if cs.head? = some '-' then
    if cs.tail ≠ [] ∧ (∀ c ∈ cs.tail, c.isDigit) then
      some (-(digitsToNat cs.tail : ℤ))
    else none
  else if cs ≠ [] ∧ (∀ c ∈ cs, c.isDigit) then
    some ((digitsToNat cs : ℤ))
  else none

/-! ## Whitespace splitting (Python `str.split()`)
`str.split()` with no argument splits on runs of whitespace and drops empty
fields.  The duration strings of this pipeline only ever contain the space
character, so only `' '` is treated as whitespace. -/
def wordsAux (cur : List Char) : List Char → List (List Char)
  | [] => if cur = [] then [] else [cur.reverse]
  | c :: cs =>
    if c = ' ' then
      (if cur = [] then wordsAux [] cs else cur.reverse :: wordsAux [] cs)
    else wordsAux (c :: cur) cs

def pyWords (s : String) : List (List Char) := wordsAux [] s.data

/-! ## Duration formatting and re-parsing
`format_duration` (app.py lines 79–85):
```python
def format_duration(td):
    s = int(td.total_seconds())
    if s < 60:
        return f"{s}s"
    m, s = divmod(s, 60)
    h, m = divmod(m, 60)
    return f"{h}h {m}m" if h else f"{m}m {s}s"
```
In the `else` branch `s ≥ 60 > 0`, so Python's floor `divmod` coincides
with natural division/modulus on `s.toNat`. -/
/-- `int(td.total_seconds())` for a timedelta of `ms` milliseconds:
truncation toward zero of `ms / 1000`. -/
def pySecondsOfMs (ms : Int) : Int :=
  if 0 ≤ ms then ((ms.toNat / 1000 : ℕ) : Int)
  else -(((-ms).toNat / 1000 : ℕ) : Int)

/-- The branch structure of `format_duration` on whole seconds. -/
def fmtSecs (s : Int) : String :=
  if s < 60 then intStr s ++ "s"
  else
    let m := s.toNat / 60
    let s2 := s.toNat % 60
    let h := m / 60
    let m2 := m % 60
    if h ≠ 0 then natStr h ++ "h " ++ natStr m2 ++ "m"
    else natStr m2 ++ "m " ++ natStr s2 ++ "s"

/-- `format_duration` on a timedelta given in milliseconds. -/
def format_duration (td_ms : Int) : String := fmtSecs (pySecondsOfMs td_ms)

/-- One whitespace-separated part of a duration string, as consumed by the
loop body in `calculate_mttr` (app.py lines 130–138): an `in` test for each
unit letter in order `d`, `h`, `m`, `s`; `replace(letter, '')` drops every
occurrence of the letter; `int()` failure raises (`none`); a part with no
unit letter is skipped (contributes 0).  The value is in minutes. -/
def parsePart (cs : List Char) : Option ℚ :=
  if 'd' ∈ cs then (pyInt (cs.filter (· != 'd'))).map (fun n => (n : ℚ) * 1440)
  else if 'h' ∈ cs then (pyInt (cs.filter (· != 'h'))).map (fun n => (n : ℚ) * 60)
  else if 'm' ∈ cs then (pyInt (cs.filter (· != 'm'))).map (fun n => (n : ℚ))
  else if 's' ∈ cs then (pyInt (cs.filter (· != 's'))).map (fun n => (n : ℚ) / 60)
  else some 0

/-- Sum of the parsed parts; any raising part aborts the whole string
(the surrounding `try`/`except` then skips that duration). -/
def sumParts : List (List Char) → Option ℚ
  | [] => some 0
  | p :: ps => do
    let v ← parsePart p
    let r ← sumParts ps
    pure (v + r)

/-- Total minutes recovered from one formatted duration string
(the `try` body in `calculate_mttr`). -/
def parseDurationStr (s : String) : Option ℚ := sumParts (pyWords s)

/-! ## Data model
One raw event row, after `fetch_account` tagged it with `Customer` and
renamed `entity.name` to `Entity` (app.py lines 272–275).  Fields that the
API can omit are `Option`-valued: a missing field is pandas `NaN`. -/
structure RawRow where
  timestamp : Int
  conditionName : Option String
  priority : Option String
  incidentId : Option String
  event : String
  entity : Option String
  customer : Option String
deriving DecidableEq

/-- The full grouping tuple of
`raw.groupby(["incidentId", "Customer", "conditionName", "priority", "Entity"])`
(app.py lines 292–294). -/
structure GroupKey where
  incidentId : String
  customer : String
  conditionName : String
  priority : String
  entity : String
deriving DecidableEq

/-- The grouping key of a row; `none` when any key column is `NaN`, in which
case pandas `groupby` (default `dropna=True`) silently drops the row. -/
def rowKey (r : RawRow) : Option GroupKey :=
  match r.incidentId, r.customer, r.conditionName, r.priority, r.entity with
  | some i, some c, some cn, some p, some e => some ⟨i, c, cn, p, e⟩
  | _, _, _, _, _ => none

/-- The distinct grouping keys occurring in the rows. -/
def keysOf (rows : List RawRow) : List GroupKey :=
  (rows.filterMap rowKey).dedup

/-- The rows belonging to one group. -/
def groupRows (rows : List RawRow) (k : GroupKey) : List RawRow :=
  rows.filter (fun r => decide (rowKey r = some k))

/-! ### min/max of timestamps (`agg("min")`/`agg("max")`) -/
def tsMin : List Int → Int
  | [] => 0
  | x :: xs => xs.foldl min x

def tsMax : List Int → Int
  | [] => 0
  | x :: xs => xs.foldl max x

/-! ### The reconciled incident record -/
/-- One row of `grouped` (app.py lines 292–308). -/
structure Incident where
  key : GroupKey
  start_time : Int
  end_time : Int
  events : ℕ
  status : String
  duration : String
deriving DecidableEq

/-- Aggregation of one group: `start_time = min`, `end_time = max`,
`events = nunique`, then
`Status = "Active" if events == 1 else "Closed"` and
`Duration = format_duration(now - start_time if Active else end_time - start_time)`. -/
def aggGroup (now : Int) (k : GroupKey) (g : List RawRow) : Incident :=
  let st := tsMin (g.map RawRow.timestamp)
  let en := tsMax (g.map RawRow.timestamp)
  let ev := (g.map RawRow.event).dedup.length
  let status := if ev = 1 then "Active" else "Closed"
  let dur := format_duration (if status = "Active" then now - st else en - st)
  ⟨k, st, en, ev, status, dur⟩

/-- The Event Reconciler: the `grouped` dataframe of app.py lines 292–308,
one incident per distinct grouping key.  `now` is `datetime.datetime.utcnow()`
in milliseconds.  (pandas emits groups sorted by key; no claim depends on the
row order, and this embedding keeps dedup order instead.) -/
def reconcile (now : Int) (rows : List RawRow) : List Incident :=
  (keysOf rows).map (fun k => aggGroup now k (groupRows rows k))

/-! ## Metrics engine -/
/-- Rounding half to even, as Python's `"{x:.0f}"`/`"{x:.1f}"` format and
`round()` do.  (Exact rationals stand in for binary floats; representation
error of a float can flip an exact tie, which no claim here depends on.) -/
def pyRound (q : ℚ) : ℤ :=
  let f := ⌊q⌋
  let r := q - (f : ℚ)
  if r < 1 / 2 then f
  else if 1 / 2 < r then f + 1
  else if f % 2 = 0 then f else f + 1

/-- `"{x:.1f}"` for a non-negative value. -/
def fmt1 (q : ℚ) : String :=
  let n := (pyRound (q * 10)).toNat
  natStr (n / 10) ++ "." ++ natStr (n % 10)

/-- `series.value_counts()`: distinct values with their multiplicities,
sorted by count descending.  (pandas tie order is an implementation detail;
a stable insertion sort is used here.  No claim depends on tie order.) -/
def insertByCount (x : String × ℕ) : List (String × ℕ) → List (String × ℕ)
  | [] => [x]
  | y :: ys => if y.2 < x.2 then x :: y :: ys else y :: insertByCount x ys

def valueCounts (l : List String) : List (String × ℕ) :=
  (l.dedup.map (fun v => (v, l.count v))).foldr insertByCount []

/-- Python `"pat" in s` (substring test). -/
def leadMatch : List Char → List Char → Bool
  | [], _ => true
  | _ :: _, [] => false
  | a :: as, b :: bs => a == b && leadMatch as bs

def hasSub (pat : List Char) : List Char → Bool
  | [] => pat.isEmpty
  | c :: t => leadMatch pat (c :: t) || hasSub pat t

def strContains (s pat : String) : Bool := hasSub pat.data s.data

/-- `calculate_mttr` (app.py lines 116–148): average, over `Closed` rows, of
the minutes recovered by re-parsing each row's formatted `Duration` string;
re-parse failures are skipped; the average is formatted as
`"{h}h {m}m"` / `"{m}m"` with `int(avg // 60)` / `int(avg % 60)`. -/
def fmtMinutes (avg : ℚ) : String :=
  let hours := ⌊avg / 60⌋
  let minutes := ⌊avg - 60 * (⌊avg / 60⌋ : ℚ)⌋
  if 0 < hours then intStr hours ++ "h " ++ intStr minutes ++ "m"
  else intStr minutes ++ "m"

def calculate_mttr (df : List Incident) : String :=
  if df.isEmpty then "N/A"
  else
    let closed := df.filter (fun i => i.status == "Closed")
    if closed.length = 0 then "No resolved alerts yet"
    else
      let durations := closed.filterMap (fun i => parseDurationStr i.duration)
      if durations.isEmpty then "N/A"
      else fmtMinutes (durations.sum / durations.length)

/-- What `calculate_mttr` actually computes on reconciled incidents, phrased
over the raw `start_time`/`end_time` values: per closed incident, the exact
minutes below one hour, and the minutes with the seconds component dropped at
or above one hour (lost by the `"{h}h {m}m"` round trip). -/
def closedMinutes (i : Incident) : ℚ :=
  let s := pySecondsOfMs (i.end_time - i.start_time)
  if s < 3600 then (s : ℚ) / 60 else ((s.toNat / 60 : ℕ) : ℚ)

def mttrTruncSpec (df : List Incident) : String :=
  if df.isEmpty then "N/A"
  else
    let closed := df.filter (fun i => i.status == "Closed")
    if closed.length = 0 then "No resolved alerts yet"
    else
      let mins := closed.map closedMinutes
      if mins.isEmpty then "N/A"
      else fmtMinutes (mins.sum / mins.length)

/-- MTTR as the spec's words demand it (claim C4): the average over Closed
incidents of `end_time - start_time`, computed directly from the raw
timestamps (exact minutes, no re-parsing of formatted strings), then
formatted the same way. -/
def mttrSpec (df : List Incident) : String :=
  if df.isEmpty then "N/A"
  else
    let closed := df.filter (fun i => i.status == "Closed")
    if closed.length = 0 then "No resolved alerts yet"
    else
      let mins := closed.map (fun i => ((i.end_time - i.start_time : ℤ) : ℚ) / 60000)
      if mins.isEmpty then "N/A"
      else fmtMinutes (mins.sum / mins.length)

/-- `get_alert_frequency` (app.py lines 150–173). -/
def get_alert_frequency (df : List Incident) (time_label : String) : String :=
  if df.isEmpty then "N/A"
  else
    let total := df.length
    if strContains time_label "6 Hours" then fmt1 ((total : ℚ) / 6) ++ " per hour"
    else if strContains time_label "24 Hours" then fmt1 ((total : ℚ) / 24) ++ " per hour"
    else if strContains time_label "7 Days" then fmt1 ((total : ℚ) / 7) ++ " per day"
    else if strContains time_label "1 Month" then fmt1 ((total : ℚ) / 30) ++ " per day"
    else if strContains time_label "3 Months" then fmt1 ((total : ℚ) / 90) ++ " per day"
    else natStr total ++ " total"

/-- The spec's fixed lookup table from time-window label to
(divisor, unit name), in the order the code tests them. -/
def freqTable : List (String × ℕ × String) :=
  [("6 Hours", 6, "hour"), ("24 Hours", 24, "hour"), ("7 Days", 7, "day"),
   ("1 Month", 30, "day"), ("3 Months", 90, "day")]

def freqLookup (label : String) : Option (ℕ × String) :=
  (freqTable.find? (fun e => strContains label e.1)).map (fun e => e.2)

/-- Frequency as the spec words it: `total / divisor` per unit via the fixed
lookup table, falling back to the raw total for an unsupported label. -/
def freqFromTable (total : ℕ) (label : String) : String :=
  match freqLookup label with
  | some (d, u) => fmt1 ((total : ℚ) / d) ++ " per " ++ u
  | none => natStr total ++ " total"

/-- `get_resolution_rate` (app.py lines 175–183): `"{rate:.0f}%"`. -/
def get_resolution_rate (df : List Incident) : String :=
  if df.isEmpty then "0%"
  else
    let total := df.length
    let resolved := (df.filter (fun i => i.status == "Closed")).length
    intStr (pyRound ((resolved : ℚ) / (total : ℚ) * 100)) ++ "%"

/-- `get_top_3_entities` (app.py lines 185–194).  The `Entity` column always
exists on the reconciled frame (it is a grouping key). -/
def get_top_3_entities (df : List Incident) : List (String × ℕ) :=
  if df.isEmpty then []
  else (valueCounts (df.map (fun i => i.key.entity))).take 3

/-- `calculate_alert_trend` (app.py lines 196–208); `time_label` is unused
by the code. -/
def calculate_alert_trend (df : List Incident) (time_label : String) : String :=
  if df.isEmpty then "N/A"
  else if 100 < df.length then "High volume"
  else if 50 < df.length then "Moderate volume"
  else "Low volume"

/-- The dict returned by `generate_better_insights`; the empty-input branch
has no `top_condition` key, modelled as `none`. -/
structure MetricsSnapshot where
  mttr : String
  frequency : String
  resolution_rate : String
  top_entities : List (String × ℕ)
  trend : String
  top_condition : Option String
  recommendations : List String
deriving DecidableEq

/-- `generate_better_insights` (app.py lines 210–252).  The float products
`active / total > 0.5` and `top_count > total * 0.3` are modelled exactly
over ℚ. -/
def generate_better_insights (df : List Incident) (time_label : String) : MetricsSnapshot :=
  if df.isEmpty then
    { mttr := "N/A", frequency := "N/A", resolution_rate := "0%", top_entities := [],
      trend := "N/A", top_condition := none,
      recommendations := ["No alerts in this period"] }
  else
    let total := df.length
    let active := (df.filter (fun i => i.status == "Active")).length
    let conds := valueCounts (df.map (fun i => i.key.conditionName))
    let top_condition : Option String :=
      match conds with
      | [] => none
      | (c, _) :: _ => some c
    let recs1 : List String :=
      if (1 : ℚ) / 2 < (active : ℚ) / (total : ℚ) then
        ["🎯 High active rate (>50%) - Consider tuning alert thresholds"]
      else []
    let recs2 : List String :=
      match conds with
      | [] => []
      | (c, cnt) :: _ =>
        if (total : ℚ) * (3 / 10) < (cnt : ℚ) then
          ["🎯 '" ++ c ++ "' causes " ++
            intStr (pyRound ((cnt : ℚ) / (total : ℚ) * 100)) ++
            "% of alerts - Needs investigation"]
        else []
    let recs := recs1 ++ recs2
    { mttr := calculate_mttr df,
      frequency := get_alert_frequency df time_label,
      resolution_rate := get_resolution_rate df,
      top_entities := get_top_3_entities df,
      trend := calculate_alert_trend df time_label,
      top_condition := top_condition,
      recommendations := if recs.isEmpty then ["✅ Alert conditions look well-tuned"] else recs }

/-! ## Multi-account aggregation (app.py lines 254–289)
`fetch_account` performs `r.json()["data"]["actor"]["account"]["nrql"]["results"]`
with no `try`/`except`: a transport error or missing JSON field raises.  The
load loop
```python
for name, cfg in targets:
    df = fetch_account(name, cfg["api_key"], cfg["account_id"], time_clause)
    if not df.empty:
        all_rows.append(df)
```
propagates such an exception, aborting the whole refresh. -/
inductive FetchResult where
  /-- The account's query succeeded and returned these (already
  customer-tagged) rows; an account with no data returns `ok []`. -/
  | ok (rows : List RawRow)
  /-- The fetch raised (non-200, malformed JSON, missing nested field). -/
  | err
deriving DecidableEq

/-- The `all_rows` loop followed by `pd.concat`: the concatenation of all
fetched row sets, or the propagated exception of the first failing fetch. -/
def loadAllRows : List FetchResult → Except Unit (List RawRow)
  | [] => Except.ok []
  | FetchResult.err :: _ => Except.error ()
  | FetchResult.ok rows :: rest =>
    match loadAllRows rest with
    | Except.ok acc => Except.ok (rows ++ acc)
    | Except.error e => Except.error e

/-! ## Concrete fixtures used by counterexamples and witnesses -/
/-- A fully-populated raw event row carrying the key `k`. -/
def mkEventRow (k : GroupKey) (t : Int) (ev : String) : RawRow :=
  ⟨t, some k.conditionName, some k.priority, some k.incidentId, ev,
    some k.entity, some k.customer⟩

def exKey : GroupKey := ⟨"1", "A", "cond", "P", "ent"⟩

def exKey2 : GroupKey := ⟨"2", "A", "cond", "P", "ent"⟩

/-- Two incidents: one open/close pair spanning 3659 s, one spanning 61 s. -/
def rowsC4 : List RawRow :=
  [mkEventRow exKey 0 "open", mkEventRow exKey 3659000 "close",
   mkEventRow exKey2 0 "open", mkEventRow exKey2 61000 "close"]

/-- The incident reconciled from a single close-only event at `t = 0`,
read at `now = 1000` ms. -/
def incC1 : Incident := ⟨exKey, 0, 0, 1, "Active", "1s"⟩

/-- An Active incident record. -/
def activeInc : Incident := ⟨exKey, 0, 0, 1, "Active", "0s"⟩

/-- A Closed incident record. -/
def closedInc : Incident := ⟨exKey, 0, 0, 2, "Closed", "0s"⟩

/-- A row whose `conditionName` is `NaN` (missing grouping key component). -/
def noneRow : RawRow := ⟨0, none, some "P", some "1", "open", some "e", some "A"⟩

/-- The two incidents reconciled from `rowsC4`. -/
def incA4 : Incident := ⟨exKey, 0, 3659000, 2, "Closed", "1h 0m"⟩

def incB4 : Incident := ⟨exKey2, 0, 61000, 2, "Closed", "1m 1s"⟩

/-- The Duration Formatter as the spec words it: `"{s}s"` below one minute,
`"{m}m {s}s"` below one hour, `"{h}h {m}m"` at or above one hour. -/
def durationSpecFmt (s : Int) : String :=
  if s < 60 then intStr s ++ "s"
  else if s < 3600 then natStr (s.toNat / 60) ++ "m " ++ natStr (s.toNat % 60) ++ "s"
  else natStr (s.toNat / 3600) ++ "h " ++ natStr (s.toNat % 3600 / 60) ++ "m"

/-! ## Theorems -/

theorem natDigitsAux_congr :
    ∀ f1 f2 n, n ≤ f1 → n ≤ f2 → natDigitsAux f1 n = natDigitsAux f2 n := by
  intro f1
  induction f1 with
  | zero =>
    intro f2 n h1 _
    interval_cases n
    cases f2 <;> simp [natDigitsAux]
  | succ f1 ih =>
    intro f2 n h1 h2
    by_cases hn : n < 10
    · cases f2 <;> simp [natDigitsAux, hn]
    · rcases f2 with _ | f2
      · omega
      · simp only [natDigitsAux, if_neg hn]
        rw [ih f2 (n / 10) (by omega) (by omega)]

theorem natDigits_unfold (n : ℕ) :
    natDigits n = if n < 10 then [Nat.digitChar n]
      else natDigits (n / 10) ++ [Nat.digitChar (n % 10)] := by
  unfold natDigits
  rcases n with _ | m
  · simp [natDigitsAux]
  · by_cases hn : m + 1 < 10
    · simp [natDigitsAux, hn]
    · simp only [natDigitsAux, if_neg hn]
      rw [natDigitsAux_congr m ((m + 1) / 10) ((m + 1) / 10) (by omega) (by omega)]

/-! ### Digit lemmas -/
theorem digitChar_isDigit {d : ℕ} (h : d < 10) : (Nat.digitChar d).isDigit = true := by
  interval_cases d <;> decide

theorem digitChar_toNat {d : ℕ} (h : d < 10) : (Nat.digitChar d).toNat = 48 + d := by
  interval_cases d <;> decide

theorem natDigits_ne_nil (n : ℕ) : natDigits n ≠ [] := by
  rw [natDigits_unfold]
  split <;> simp

theorem natDigits_all_digit (n : ℕ) : ∀ c ∈ natDigits n, c.isDigit = true := by
  induction n using Nat.strong_induction_on with
  | _ n ih =>
    rw [natDigits_unfold]
    split
    · intro c hc
      simp only [List.mem_singleton] at hc
      subst hc
      exact digitChar_isDigit (by omega)
    · intro c hc
      rcases List.mem_append.mp hc with h1 | h2
      · exact ih (n / 10) (Nat.div_lt_self (by omega) (by omega)) c h1
      · simp only [List.mem_singleton] at h2
        subst h2
        exact digitChar_isDigit (Nat.mod_lt _ (by omega))

theorem digitsToNat_append_digit (cs : List Char) (c : Char) :
    digitsToNat (cs ++ [c]) = 10 * digitsToNat cs + (c.toNat - 48) := by
  simp [digitsToNat, List.foldl_append]

theorem digitsToNat_natDigits (n : ℕ) : digitsToNat (natDigits n) = n := by
  induction n using Nat.strong_induction_on with
  | _ n ih =>
    rw [natDigits_unfold]
    split
    · next h =>
      simp [digitsToNat, digitChar_toNat h]
    · next h =>
      rw [digitsToNat_append_digit, ih (n / 10) (Nat.div_lt_self (by omega) (by omega)),
        digitChar_toNat (Nat.mod_lt _ (by omega))]
      omega

theorem isDigit_ne_of_not_digit {c x : Char} (hc : c.isDigit = true)
    (hx : x.isDigit = false) : c ≠ x := by
  intro h
  subst h
  rw [hc] at hx
  exact absurd hx (by simp)

theorem pyInt_digits (cs : List Char) (hne : cs ≠ [])
    (hdig : ∀ c ∈ cs, c.isDigit = true) :
    pyInt cs = some ((digitsToNat cs : ℤ)) := by
  unfold pyInt
  rcases cs with _ | ⟨c, t⟩
  · exact absurd rfl hne
  · rw [if_neg, if_pos ⟨hne, hdig⟩]
    simp only [List.head?_cons, Option.some.injEq]
    exact isDigit_ne_of_not_digit (hdig c (by simp)) (by decide)

theorem pyInt_natDigits (n : ℕ) : pyInt (natDigits n) = some (n : ℤ) := by
  rw [pyInt_digits _ (natDigits_ne_nil n) (natDigits_all_digit n), digitsToNat_natDigits]

theorem wordsAux_no_space (xs : List Char) (h : ∀ c ∈ xs, c ≠ ' ') :
    ∀ (cur rest : List Char), wordsAux cur (xs ++ rest) = wordsAux (xs.reverse ++ cur) rest := by
  induction xs with
  | nil => intro cur rest; simp
  | cons c t ih =>
    intro cur rest
    simp only [List.cons_append, wordsAux]
    rw [if_neg (h c (by simp))]
    have hih := ih (fun d hd => h d (by simp [hd])) (c :: cur) rest
    simpa [List.append_assoc] using hih

theorem pyWords_single (xs : List Char) (hne : xs ≠ []) (h : ∀ c ∈ xs, c ≠ ' ') :
    wordsAux [] xs = [xs] := by
  have := wordsAux_no_space xs h [] []
  rw [List.append_nil] at this
  rw [this]
  simp [wordsAux, hne]

theorem wordsAux_space (cur : List Char) (h : cur ≠ []) (ys : List Char) :
    wordsAux cur (' ' :: ys) = cur.reverse :: wordsAux [] ys := by
  simp [wordsAux, h]

theorem pyWords_two (xs ys : List Char) (hxne : xs ≠ []) (hyne : ys ≠ [])
    (hx : ∀ c ∈ xs, c ≠ ' ') (hy : ∀ c ∈ ys, c ≠ ' ') :
    wordsAux [] (xs ++ ' ' :: ys) = [xs, ys] := by
  rw [wordsAux_no_space xs hx [] (' ' :: ys), List.append_nil,
    wordsAux_space _ (by simpa using hxne), pyWords_single ys hyne hy]
  simp

/-! ### Round trip: re-parsing a formatted duration -/
theorem natDigits_not_mem {x : Char} (hx : x.isDigit = false) (a : ℕ) :
    x ∉ natDigits a := by
  intro hmem
  have := natDigits_all_digit a x hmem
  rw [this] at hx
  exact absurd hx (by simp)

theorem not_mem_digits_unit {x u : Char} (hx : x.isDigit = false) (hxu : x ≠ u) (a : ℕ) :
    x ∉ natDigits a ++ [u] := by
  intro hmem
  rcases List.mem_append.mp hmem with h1 | h2
  · exact natDigits_not_mem hx a h1
  · simp only [List.mem_singleton] at h2
    exact hxu h2

theorem mem_digits_unit (u : Char) (a : ℕ) : u ∈ natDigits a ++ [u] :=
  List.mem_append_right _ (by simp)

theorem filter_digits_unit (a : ℕ) {u : Char} (hu : u.isDigit = false) :
    (natDigits a ++ [u]).filter (· != u) = natDigits a := by
  rw [List.filter_append]
  have h1 : (natDigits a).filter (· != u) = natDigits a :=
    List.filter_eq_self.mpr (fun c hc => by
      simp only [bne_iff_ne, ne_eq, decide_eq_true_eq]
      exact isDigit_ne_of_not_digit (natDigits_all_digit a c hc) hu)
  have h2 : [u].filter (· != u) = ([] : List Char) := by simp
  rw [h1, h2, List.append_nil]

theorem parsePart_h (a : ℕ) : parsePart (natDigits a ++ ['h']) = some ((a : ℚ) * 60) := by
  unfold parsePart
  rw [if_neg (not_mem_digits_unit (by decide) (by decide) a),
    if_pos (mem_digits_unit 'h' a),
    filter_digits_unit a (by decide), pyInt_natDigits]
  simp

theorem parsePart_m (a : ℕ) : parsePart (natDigits a ++ ['m']) = some ((a : ℚ)) := by
  unfold parsePart
  rw [if_neg (not_mem_digits_unit (by decide) (by decide) a),
    if_neg (not_mem_digits_unit (by decide) (by decide) a),
    if_pos (mem_digits_unit 'm' a),
    filter_digits_unit a (by decide), pyInt_natDigits]
  simp

theorem parsePart_s (a : ℕ) : parsePart (natDigits a ++ ['s']) = some ((a : ℚ) / 60) := by
  unfold parsePart
  rw [if_neg (not_mem_digits_unit (by decide) (by decide) a),
    if_neg (not_mem_digits_unit (by decide) (by decide) a),
    if_neg (not_mem_digits_unit (by decide) (by decide) a),
    if_pos (mem_digits_unit 's' a),
    filter_digits_unit a (by decide), pyInt_natDigits]
  simp

theorem no_space_digits_unit (a : ℕ) {u : Char} (hu : u ≠ ' ') :
    ∀ c ∈ natDigits a ++ [u], c ≠ ' ' := by
  intro c hc
  rcases List.mem_append.mp hc with h1 | h2
  · exact isDigit_ne_of_not_digit (natDigits_all_digit a c h1) (by decide)
  · simp only [List.mem_singleton] at h2
    subst h2
    exact hu

theorem digits_unit_ne_nil (a : ℕ) (u : Char) : natDigits a ++ [u] ≠ [] := by
  simp

theorem str_data_append (s t : String) : (s ++ t).data = s.data ++ t.data := rfl

theorem parse_one_unit (a : ℕ) {u : Char} (hu : u ≠ ' ') (v : ℚ)
    (hp : parsePart (natDigits a ++ [u]) = some v) :
    parseDurationStr (String.mk (natDigits a ++ [u])) = some v := by
  unfold parseDurationStr pyWords
  rw [show (String.mk (natDigits a ++ [u])).data = natDigits a ++ [u] from rfl,
    pyWords_single _ (digits_unit_ne_nil a u) (no_space_digits_unit a hu)]
  simp [sumParts, hp]

theorem parse_two_units (a b : ℕ) {u1 u2 : Char} (hu1 : u1 ≠ ' ') (hu2 : u2 ≠ ' ')
    (v1 v2 : ℚ)
    (hp1 : parsePart (natDigits a ++ [u1]) = some v1)
    (hp2 : parsePart (natDigits b ++ [u2]) = some v2) :
    parseDurationStr (String.mk ((natDigits a ++ [u1]) ++ ' ' :: (natDigits b ++ [u2]))) =
      some (v1 + v2) := by
  unfold parseDurationStr pyWords
  rw [show (String.mk ((natDigits a ++ [u1]) ++ ' ' :: (natDigits b ++ [u2]))).data =
      (natDigits a ++ [u1]) ++ ' ' :: (natDigits b ++ [u2]) from rfl,
    pyWords_two _ _ (digits_unit_ne_nil a u1) (digits_unit_ne_nil b u2)
      (no_space_digits_unit a hu1) (no_space_digits_unit b hu2)]
  simp [sumParts, hp1, hp2]

theorem data_natStr (n : ℕ) : (natStr n).data = natDigits n := rfl

theorem string_eq_of_data (s t : String) (h : s.data = t.data) : s = t := by
  cases s
  cases t
  cases h
  rfl

/-- Re-parsing a formatted non-negative whole-second span recovers its exact
minute value below one hour, and its minute value with seconds dropped at or
above one hour (the `"{h}h {m}m"` format has no seconds field). -/
theorem parse_fmtSecs (n : ℕ) :
    parseDurationStr (fmtSecs (n : ℤ)) =
      some (if n < 3600 then (n : ℚ) / 60 else ((n / 60 : ℕ) : ℚ)) := by
  unfold fmtSecs
  have ht : ((n : ℤ)).toNat = n := by omega
  by_cases h60 : n < 60
  · rw [if_pos (by exact_mod_cast h60)]
    have hint : intStr (n : ℤ) = natStr n := by
      unfold intStr
      rw [if_neg (by omega), ht]
    have key : natStr n ++ "s" = String.mk (natDigits n ++ ['s']) :=
      string_eq_of_data _ _ (by simp [str_data_append, data_natStr])
    rw [hint, key, parse_one_unit n (by decide) _ (parsePart_s n),
      if_pos (show n < 3600 by omega)]
  · rw [if_neg (by exact_mod_cast h60)]
    simp only [ht]
    by_cases h3600 : n < 3600
    · rw [if_neg (show ¬(n / 60 / 60 ≠ 0) by omega), if_pos h3600]
      have key : natStr (n / 60 % 60) ++ "m " ++ natStr (n % 60) ++ "s" =
          String.mk ((natDigits (n / 60 % 60) ++ ['m']) ++ ' ' :: (natDigits (n % 60) ++ ['s'])) :=
        string_eq_of_data _ _ (by simp [str_data_append, data_natStr])
      rw [key, parse_two_units _ _ (by decide) (by decide) _ _
        (parsePart_m (n / 60 % 60)) (parsePart_s (n % 60))]
      congr 1
      have e1 : n / 60 % 60 = n / 60 := by omega
      have h : n / 60 * 60 + n % 60 = n := by omega
      have e2 : ((n / 60 : ℕ) : ℚ) * 60 + ((n % 60 : ℕ) : ℚ) = (n : ℚ) := by
        exact_mod_cast congrArg (fun k : ℕ => (k : ℚ)) h
      rw [e1, eq_div_iff (by norm_num : (60 : ℚ) ≠ 0)]
      linear_combination e2
    · rw [if_pos (show n / 60 / 60 ≠ 0 by omega), if_neg h3600]
      have key : natStr (n / 60 / 60) ++ "h " ++ natStr (n / 60 % 60) ++ "m" =
          String.mk ((natDigits (n / 60 / 60) ++ ['h']) ++ ' ' :: (natDigits (n / 60 % 60) ++ ['m'])) :=
        string_eq_of_data _ _ (by simp [str_data_append, data_natStr])
      rw [key, parse_two_units _ _ (by decide) (by decide) _ _
        (parsePart_h (n / 60 / 60)) (parsePart_m (n / 60 % 60))]
      congr 1
      have h : n / 60 / 60 * 60 + n / 60 % 60 = n / 60 := by omega
      exact_mod_cast congrArg (fun k : ℕ => (k : ℚ)) h

theorem foldl_min_le_init (xs : List Int) (a : Int) : xs.foldl min a ≤ a := by
  induction xs generalizing a with
  | nil => exact le_refl a
  | cons x t ih =>
    exact le_trans (ih (min a x)) (min_le_left a x)

theorem foldl_min_le_mem (xs : List Int) (a : Int) : ∀ x ∈ xs, xs.foldl min a ≤ x := by
  induction xs generalizing a with
  | nil => intro x hx; cases hx
  | cons y t ih =>
    intro x hx
    rcases List.mem_cons.mp hx with h | h
    · subst h
      exact le_trans (foldl_min_le_init t (min a x)) (min_le_right a x)
    · exact ih (min a y) x h

theorem foldl_min_mem_or (xs : List Int) (a : Int) :
    xs.foldl min a = a ∨ xs.foldl min a ∈ xs := by
  induction xs generalizing a with
  | nil => exact Or.inl rfl
  | cons y t ih =>
    rcases ih (min a y) with h | h
    · rcases min_cases a y with ⟨he, _⟩ | ⟨he, _⟩
      · exact Or.inl (by rw [List.foldl_cons, h, he])
      · exact Or.inr (by rw [List.foldl_cons, h, he]; exact List.mem_cons_self y t)
    · exact Or.inr (List.mem_cons_of_mem y h)

theorem foldl_max_init_le (xs : List Int) (a : Int) : a ≤ xs.foldl max a := by
  induction xs generalizing a with
  | nil => exact le_refl a
  | cons x t ih =>
    exact le_trans (le_max_left a x) (ih (max a x))

theorem foldl_max_mem_le (xs : List Int) (a : Int) : ∀ x ∈ xs, x ≤ xs.foldl max a := by
  induction xs generalizing a with
  | nil => intro x hx; cases hx
  | cons y t ih =>
    intro x hx
    rcases List.mem_cons.mp hx with h | h
    · subst h
      exact le_trans (le_max_right a x) (foldl_max_init_le t (max a x))
    · exact ih (max a y) x h

theorem foldl_max_mem_or (xs : List Int) (a : Int) :
    xs.foldl max a = a ∨ xs.foldl max a ∈ xs := by
  induction xs generalizing a with
  | nil => exact Or.inl rfl
  | cons y t ih =>
    rcases ih (max a y) with h | h
    · rcases max_cases a y with ⟨he, _⟩ | ⟨he, _⟩
      · exact Or.inl (by rw [List.foldl_cons, h, he])
      · exact Or.inr (by rw [List.foldl_cons, h, he]; exact List.mem_cons_self y t)
    · exact Or.inr (List.mem_cons_of_mem y h)

theorem tsMin_mem (l : List Int) (h : l ≠ []) : tsMin l ∈ l := by
  rcases l with _ | ⟨x, xs⟩
  · exact absurd rfl h
  · rcases foldl_min_mem_or xs x with he | he
    · rw [tsMin, he]; exact List.mem_cons_self x xs
    · rw [tsMin]; exact List.mem_cons_of_mem x he

theorem tsMin_le (l : List Int) : ∀ x ∈ l, tsMin l ≤ x := by
  rcases l with _ | ⟨y, xs⟩
  · intro x hx; cases hx
  · intro x hx
    rcases List.mem_cons.mp hx with h | h
    · subst h; exact foldl_min_le_init xs x
    · exact foldl_min_le_mem xs y x h

theorem tsMax_mem (l : List Int) (h : l ≠ []) : tsMax l ∈ l := by
  rcases l with _ | ⟨x, xs⟩
  · exact absurd rfl h
  · rcases foldl_max_mem_or xs x with he | he
    · rw [tsMax, he]; exact List.mem_cons_self x xs
    · rw [tsMax]; exact List.mem_cons_of_mem x he

theorem le_tsMax (l : List Int) : ∀ x ∈ l, x ≤ tsMax l := by
  rcases l with _ | ⟨y, xs⟩
  · intro x hx; cases hx
  · intro x hx
    rcases List.mem_cons.mp hx with h | h
    · subst h; exact foldl_max_init_le xs x
    · exact foldl_max_mem_le xs y x h

theorem tsMin_cons_of_mem {x : Int} {l : List Int} (h : x ∈ l) :
    tsMin (x :: l) = tsMin l := by
  have hne : l ≠ [] := List.ne_nil_of_mem h
  apply le_antisymm
  · exact tsMin_le (x :: l) (tsMin l) (List.mem_cons_of_mem x (tsMin_mem l hne))
  · rcases List.mem_cons.mp (tsMin_mem (x :: l) (List.cons_ne_nil x l)) with he | he
    · rw [he]; exact tsMin_le l x h
    · exact tsMin_le l _ he

theorem tsMax_cons_of_mem {x : Int} {l : List Int} (h : x ∈ l) :
    tsMax (x :: l) = tsMax l := by
  have hne : l ≠ [] := List.ne_nil_of_mem h
  apply le_antisymm
  · rcases List.mem_cons.mp (tsMax_mem (x :: l) (List.cons_ne_nil x l)) with he | he
    · rw [he]; exact le_tsMax l x h
    · exact le_tsMax l _ he
  · exact le_tsMax (x :: l) (tsMax l) (List.mem_cons_of_mem x (tsMax_mem l hne))

/-! ### Reconciler lemmas -/
theorem mem_keysOf {k : GroupKey} {rows : List RawRow} :
    k ∈ keysOf rows ↔ ∃ r ∈ rows, rowKey r = some k := by
  simp [keysOf, List.mem_dedup, List.mem_filterMap]

theorem keysOf_nodup (rows : List RawRow) : (keysOf rows).Nodup :=
  List.nodup_dedup _

theorem aggGroup_key (now : Int) (k : GroupKey) (g : List RawRow) :
    (aggGroup now k g).key = k := rfl

theorem reconcile_map_key (now : Int) (rows : List RawRow) :
    (reconcile now rows).map Incident.key = keysOf rows := by
  rw [reconcile, List.map_map]
  have : (Incident.key ∘ fun k => aggGroup now k (groupRows rows k)) = fun k => k := by
    funext k
    rfl
  rw [this, List.map_id']

theorem mem_groupRows {r : RawRow} {rows : List RawRow} {k : GroupKey} :
    r ∈ groupRows rows k ↔ r ∈ rows ∧ rowKey r = some k := by
  simp [groupRows]

theorem groupRows_ne_nil {k : GroupKey} {rows : List RawRow} (h : k ∈ keysOf rows) :
    groupRows rows k ≠ [] := by
  obtain ⟨r, hr, hk⟩ := mem_keysOf.mp h
  exact List.ne_nil_of_mem (mem_groupRows.mpr ⟨hr, hk⟩)

theorem mem_reconcile {i : Incident} {now : Int} {rows : List RawRow} :
    i ∈ reconcile now rows ↔
      ∃ k ∈ keysOf rows, i = aggGroup now k (groupRows rows k) := by
  simp [reconcile, eq_comm]

theorem aggGroup_status_iff (now : Int) (k : GroupKey) (g : List RawRow) :
    ((aggGroup now k g).status = "Active" ↔ (aggGroup now k g).events = 1)
    ∧ ((aggGroup now k g).status = "Closed" ↔ (aggGroup now k g).events ≠ 1) := by
  by_cases hev : (g.map RawRow.event).dedup.length = 1 <;>
    simp [aggGroup, hev]

theorem aggGroup_start_le_end (now : Int) (k : GroupKey) (g : List RawRow)
    (h : g ≠ []) : (aggGroup now k g).start_time ≤ (aggGroup now k g).end_time := by
  have hts : g.map RawRow.timestamp ≠ [] := by
    simpa using h
  exact le_trans
    (tsMin_le _ _ (tsMax_mem _ hts))
    (le_refl _)

/-! ### Duplicate rows do not change the reconciliation -/
theorem keysOf_cons_of_mem {r : RawRow} {rows : List RawRow} (hr : r ∈ rows) :
    keysOf (r :: rows) = keysOf rows := by
  unfold keysOf
  cases hk : rowKey r with
  | none => rw [List.filterMap_cons_none hk]
  | some k =>
    rw [List.filterMap_cons_some hk]
    exact List.dedup_cons_of_mem (List.mem_filterMap.mpr ⟨r, hr, hk⟩)

theorem groupRows_cons (r : RawRow) (rows : List RawRow) (k : GroupKey) :
    groupRows (r :: rows) k =
      if rowKey r = some k then r :: groupRows rows k else groupRows rows k := by
  by_cases h : rowKey r = some k <;> simp [groupRows, List.filter_cons, h]

theorem aggGroup_cons_of_mem {r : RawRow} {g : List RawRow} (h : r ∈ g)
    (now : Int) (k : GroupKey) : aggGroup now k (r :: g) = aggGroup now k g := by
  unfold aggGroup
  have hmin : tsMin (r.timestamp :: g.map RawRow.timestamp) =
      tsMin (g.map RawRow.timestamp) :=
    tsMin_cons_of_mem (List.mem_map_of_mem _ h)
  have hmax : tsMax (r.timestamp :: g.map RawRow.timestamp) =
      tsMax (g.map RawRow.timestamp) :=
    tsMax_cons_of_mem (List.mem_map_of_mem _ h)
  have hdedup : (r.event :: g.map RawRow.event).dedup = (g.map RawRow.event).dedup :=
    List.dedup_cons_of_mem (List.mem_map_of_mem _ h)
  simp only [List.map_cons, hmin, hmax, hdedup]

theorem reconcile_cons_of_mem {r : RawRow} {rows : List RawRow} (hr : r ∈ rows)
    (now : Int) : reconcile now (r :: rows) = reconcile now rows := by
  unfold reconcile
  rw [keysOf_cons_of_mem hr]
  apply List.map_congr_left
  intro k _
  rw [groupRows_cons]
  split
  · next h => exact aggGroup_cons_of_mem (mem_groupRows.mpr ⟨hr, h⟩) now k
  · rfl

/-! ### Rows with a missing key component are dropped -/
theorem keysOf_filter_some (rows : List RawRow) :
    keysOf (rows.filter (fun r => (rowKey r).isSome)) = keysOf rows := by
  unfold keysOf
  congr 1
  induction rows with
  | nil => rfl
  | cons r t ih =>
    cases hk : rowKey r with
    | none => simp [List.filter_cons, List.filterMap_cons, hk, ih]
    | some k => simp [List.filter_cons, List.filterMap_cons, hk, ih]

theorem groupRows_filter_some (rows : List RawRow) (k : GroupKey) :
    groupRows (rows.filter (fun r => (rowKey r).isSome)) k = groupRows rows k := by
  unfold groupRows
  induction rows with
  | nil => rfl
  | cons r t ih =>
    cases hk : rowKey r with
    | none =>
      have hd : decide (rowKey r = some k) = false := by simp [hk]
      simp [List.filter_cons, hk, hd, ih]
    | some k2 =>
      by_cases hkk : k2 = k
      · subst hkk
        simp [List.filter_cons, hk, ih]
      · have hd : decide (rowKey r = some k) = false := by simp [hk, hkk]
        simp [List.filter_cons, hk, hd, ih]

theorem rowKey_mkEventRow (k : GroupKey) (t : Int) (ev : String) :
    rowKey (mkEventRow k t ev) = some k := rfl

theorem reconcile_singleton {r : RawRow} {k : GroupKey} (h : rowKey r = some k)
    (now : Int) : reconcile now [r] = [aggGroup now k [r]] := by
  unfold reconcile keysOf groupRows
  rw [List.filterMap_cons_some h, List.filterMap_nil,
    List.dedup_cons_of_not_mem (by simp), List.dedup_nil]
  simp [h]

/-! ## Claim C1 -/
/-- C1 counterexample: a group containing only a close event (no open) is
reconciled with `status = "Active"` — its distinct-kind count is 1 — not
`"Closed"` as the claim states. -/
theorem C1_counterexample :
    (reconcile 1000 [mkEventRow exKey 0 "close"]).map Incident.status ≠ ["Closed"] := by
  decide

/-- C1 (amended): the derived status is `"Active"` exactly when the number
of distinct event kinds in the group is 1 — regardless of whether that one
kind is `open` or `close` — and `"Closed"` otherwise; in particular a group
containing only a single close event is treated as Active with
`start_time == end_time` equal to the close timestamp. -/
theorem C1_status_amended (now : Int) (rows : List RawRow) :
    (∀ i ∈ reconcile now rows,
      (i.status = "Active" ↔ i.events = 1) ∧ (i.status = "Closed" ↔ i.events ≠ 1))
    ∧ (∀ (k : GroupKey) (ts : Int),
        (reconcile now [mkEventRow k ts "close"]).map
          (fun i => (i.status, i.start_time, i.end_time)) = [("Active", ts, ts)]) := by
  constructor
  · intro i hi
    obtain ⟨k, _, rfl⟩ := mem_reconcile.mp hi
    exact aggGroup_status_iff now k _
  · intro k ts
    rw [reconcile_singleton (rowKey_mkEventRow k ts "close") now]
    simp [aggGroup, tsMin, tsMax, mkEventRow]

/-- Witness for C1: the close-only group at `t = 0` read at `now = 1000`. -/
theorem C1_status_amended_witness :
    incC1 ∈ reconcile 1000 [mkEventRow exKey 0 "close"]
    ∧ ((incC1.status = "Active" ↔ incC1.events = 1)
        ∧ (incC1.status = "Closed" ↔ incC1.events ≠ 1)) :=
  have hmem : incC1 ∈ reconcile 1000 [mkEventRow exKey 0 "close"] := by
    rw [show reconcile 1000 [mkEventRow exKey 0 "close"] = [incC1] from by decide]
    exact List.mem_singleton.mpr rfl
  ⟨hmem, (C1_status_amended 1000 [mkEventRow exKey 0 "close"]).1 incC1 hmem⟩

/-! ## Claim C2 -/
/-- C2: the reconciler produces exactly one incident per distinct grouping
key `(incidentId, Customer, conditionName, priority, Entity)` present in the
rows (the produced keys are duplicate-free and are exactly the keys of the
rows); each incident's `start_time` is the minimum and `end_time` the maximum
timestamp of its group (both bounds are attained), hence
`end_time ≥ start_time`; and prepending a duplicate of an existing row leaves
the reconciled result unchanged. -/
theorem C2_reconciler_invariants (now : Int) (rows : List RawRow) (r : RawRow)
    (hr : r ∈ rows) :
    ((reconcile now rows).map Incident.key).Nodup
    ∧ (∀ k : GroupKey,
        (∃ i ∈ reconcile now rows, i.key = k) ↔ ∃ x ∈ rows, rowKey x = some k)
    ∧ (∀ i ∈ reconcile now rows,
        i.start_time ≤ i.end_time
        ∧ (∀ x ∈ rows, rowKey x = some i.key →
            i.start_time ≤ x.timestamp ∧ x.timestamp ≤ i.end_time)
        ∧ (∃ x ∈ rows, rowKey x = some i.key ∧ x.timestamp = i.start_time)
        ∧ (∃ x ∈ rows, rowKey x = some i.key ∧ x.timestamp = i.end_time))
    ∧ reconcile now (r :: rows) = reconcile now rows := by
  refine ⟨?_, ?_, ?_, reconcile_cons_of_mem hr now⟩
  · rw [reconcile_map_key]
    exact keysOf_nodup rows
  · intro k
    constructor
    · rintro ⟨i, hi, rfl⟩
      obtain ⟨k', hk', rfl⟩ := mem_reconcile.mp hi
      rw [aggGroup_key]
      exact mem_keysOf.mp hk'
    · intro hx
      exact ⟨aggGroup now k (groupRows rows k),
        mem_reconcile.mpr ⟨k, mem_keysOf.mpr hx, rfl⟩, rfl⟩
  · intro i hi
    obtain ⟨k, hk, rfl⟩ := mem_reconcile.mp hi
    have hgne : groupRows rows k ≠ [] := groupRows_ne_nil hk
    have htsne : (groupRows rows k).map RawRow.timestamp ≠ [] := by simpa using hgne
    refine ⟨tsMin_le _ _ (tsMax_mem _ htsne), ?_, ?_, ?_⟩
    · intro x hx hkx
      rw [aggGroup_key] at hkx
      have hxg : x ∈ groupRows rows k := mem_groupRows.mpr ⟨hx, hkx⟩
      exact ⟨tsMin_le _ _ (List.mem_map_of_mem _ hxg),
        le_tsMax _ _ (List.mem_map_of_mem _ hxg)⟩
    · obtain ⟨x, hxg, hxt⟩ := List.mem_map.mp (tsMin_mem _ htsne)
      obtain ⟨hxr, hxk⟩ := mem_groupRows.mp hxg
      exact ⟨x, hxr, by rw [aggGroup_key]; exact hxk, hxt⟩
    · obtain ⟨x, hxg, hxt⟩ := List.mem_map.mp (tsMax_mem _ htsne)
      obtain ⟨hxr, hxk⟩ := mem_groupRows.mp hxg
      exact ⟨x, hxr, by rw [aggGroup_key]; exact hxk, hxt⟩

/-- Witness for C2: the duplicate-insensitivity conjunct at a singleton row
set. -/
theorem C2_reconciler_invariants_witness :
    mkEventRow exKey 0 "open" ∈ [mkEventRow exKey 0 "open"]
    ∧ reconcile 0 (mkEventRow exKey 0 "open" :: [mkEventRow exKey 0 "open"]) =
        reconcile 0 [mkEventRow exKey 0 "open"] :=
  ⟨List.mem_singleton.mpr rfl,
    (C2_reconciler_invariants 0 [mkEventRow exKey 0 "open"]
      (mkEventRow exKey 0 "open") (List.mem_singleton.mpr rfl)).2.2.2⟩

/-! ## Claim C3 -/
/-- C3 (code bug, evaluated): with two configured accounts, the first
returning one row and the second raising inside `fetch_account`, the whole
load aborts with the exception — the failing account does not merely
"contribute zero rows".  Without the failing account (or when it merely
returns an empty result set) the first account's row survives. -/
theorem C3_failure_not_isolated :
    loadAllRows [FetchResult.ok [mkEventRow exKey 0 "open"], FetchResult.err] =
      Except.error ()
    ∧ loadAllRows [FetchResult.ok [mkEventRow exKey 0 "open"]] =
        Except.ok [mkEventRow exKey 0 "open"]
    ∧ loadAllRows [FetchResult.ok [mkEventRow exKey 0 "open"], FetchResult.ok []] =
        Except.ok [mkEventRow exKey 0 "open"] :=
  ⟨rfl, rfl, rfl⟩

/-! ## Claim C4 -/
theorem aggGroup_duration_closed {now : Int} {k : GroupKey} {g : List RawRow}
    (hst : (aggGroup now k g).status = "Closed") :
    (aggGroup now k g).duration =
      format_duration (tsMax (g.map RawRow.timestamp) - tsMin (g.map RawRow.timestamp)) := by
  by_cases hev : (g.map RawRow.event).dedup.length = 1
  · exfalso
    have hact : (aggGroup now k g).status = "Active" := by simp [aggGroup, hev]
    rw [hst] at hact
    exact absurd hact (by decide)
  · simp [aggGroup, hev]

/-- Re-parsing the formatted duration of a reconciled Closed incident
recovers exactly `closedMinutes`. -/
theorem parse_duration_of_closed {now : Int} {rows : List RawRow} {i : Incident}
    (hi : i ∈ reconcile now rows) (hst : i.status = "Closed") :
    parseDurationStr i.duration = some (closedMinutes i) := by
  obtain ⟨k, hk, rfl⟩ := mem_reconcile.mp hi
  have hgne : groupRows rows k ≠ [] := groupRows_ne_nil hk
  have htsne : (groupRows rows k).map RawRow.timestamp ≠ [] := by simpa using hgne
  have hle : tsMin ((groupRows rows k).map RawRow.timestamp) ≤
      tsMax ((groupRows rows k).map RawRow.timestamp) :=
    tsMin_le _ _ (tsMax_mem _ htsne)
  have hms : (0 : ℤ) ≤ tsMax ((groupRows rows k).map RawRow.timestamp) -
      tsMin ((groupRows rows k).map RawRow.timestamp) := by omega
  rw [aggGroup_duration_closed hst, format_duration, pySecondsOfMs, if_pos hms]
  rw [parse_fmtSecs]
  congr 1
  have hproj : closedMinutes (aggGroup now k (groupRows rows k)) =
      (if pySecondsOfMs (tsMax ((groupRows rows k).map RawRow.timestamp) -
          tsMin ((groupRows rows k).map RawRow.timestamp)) < 3600 then
        ((pySecondsOfMs (tsMax ((groupRows rows k).map RawRow.timestamp) -
          tsMin ((groupRows rows k).map RawRow.timestamp)) : ℤ) : ℚ) / 60
      else (((pySecondsOfMs (tsMax ((groupRows rows k).map RawRow.timestamp) -
          tsMin ((groupRows rows k).map RawRow.timestamp))).toNat / 60 : ℕ) : ℚ)) := rfl
  rw [hproj, pySecondsOfMs, if_pos hms]
  by_cases h36 : ((tsMax ((groupRows rows k).map RawRow.timestamp) -
      tsMin ((groupRows rows k).map RawRow.timestamp)).toNat / 1000 : ℕ) < 3600
  · rw [if_pos h36, if_pos (by exact_mod_cast h36)]
    push_cast
    rfl
  · rw [if_neg h36, if_neg (by exact_mod_cast h36)]
    congr 1

theorem filterMap_eq_map_of_forall {α β : Type} {l : List α} {f : α → Option β}
    {g : α → β} (h : ∀ x ∈ l, f x = some (g x)) : l.filterMap f = l.map g := by
  induction l with
  | nil => rfl
  | cons a t ih =>
    rw [List.filterMap_cons_some (h a (by simp)), List.map_cons,
      ih (fun x hx => h x (List.mem_cons_of_mem a hx))]

/-- On any reconciled incident set, `calculate_mttr` coincides with the
raw-timestamp computation `mttrTruncSpec` (exact minutes below one hour,
seconds dropped at or above one hour). -/
theorem calculate_mttr_eq_trunc (now : Int) (rows : List RawRow) :
    calculate_mttr (reconcile now rows) = mttrTruncSpec (reconcile now rows) := by
  have hfm : (List.filter (fun i => i.status == "Closed") (reconcile now rows)).filterMap
      (fun i => parseDurationStr i.duration) =
      (List.filter (fun i => i.status == "Closed") (reconcile now rows)).map closedMinutes := by
    apply filterMap_eq_map_of_forall
    intro i hi
    exact parse_duration_of_closed (List.mem_of_mem_filter hi)
      (by simpa using List.of_mem_filter hi)
  simp only [calculate_mttr, mttrTruncSpec]
  by_cases hemp : (reconcile now rows).isEmpty
  · rw [if_pos hemp, if_pos hemp]
  · rw [if_neg hemp, if_neg hemp, hfm]

/-- `fmtMinutes` when the average is below one hour. -/
theorem fmtMinutes_low (avg : ℚ) (h0 : ⌊avg / 60⌋ = 0) :
    fmtMinutes avg = intStr ⌊avg⌋ ++ "m" := by
  show (if 0 < ⌊avg / 60⌋ then
      intStr ⌊avg / 60⌋ ++ "h " ++ intStr ⌊avg - 60 * ((⌊avg / 60⌋ : ℤ) : ℚ)⌋ ++ "m"
    else intStr ⌊avg - 60 * ((⌊avg / 60⌋ : ℤ) : ℚ)⌋ ++ "m") = intStr ⌊avg⌋ ++ "m"
  rw [h0]
  norm_num

theorem closedMinutes_incA4 : closedMinutes incA4 = (60 : ℚ) := by
  have hs : pySecondsOfMs (incA4.end_time - incA4.start_time) = 3659 := by decide
  show (if pySecondsOfMs (incA4.end_time - incA4.start_time) < 3600 then
      ((pySecondsOfMs (incA4.end_time - incA4.start_time) : ℤ) : ℚ) / 60
    else (((pySecondsOfMs (incA4.end_time - incA4.start_time)).toNat / 60 : ℕ) : ℚ)) = 60
  rw [hs, if_neg (by decide), show ((3659 : ℤ).toNat / 60 : ℕ) = 60 from by decide]
  norm_num

theorem closedMinutes_incB4 : closedMinutes incB4 = (61 : ℚ) / 60 := by
  have hs : pySecondsOfMs (incB4.end_time - incB4.start_time) = 61 := by decide
  show (if pySecondsOfMs (incB4.end_time - incB4.start_time) < 3600 then
      ((pySecondsOfMs (incB4.end_time - incB4.start_time) : ℤ) : ℚ) / 60
    else (((pySecondsOfMs (incB4.end_time - incB4.start_time)).toNat / 60 : ℕ) : ℚ)) = 61 / 60
  rw [hs, if_pos (by decide)]
  norm_num

/-- C4 counterexample: on two closed incidents spanning 3659 s and 61 s the
code reports MTTR `"30m"` (the `"1h 0m"` string re-parses to 60 min, losing
59 s), while the direct average of `end_time - start_time` is exactly 31 min,
i.e. `"31m"`.  The code therefore does not compute the claimed direct
average. -/
theorem C4_counterexample :
    calculate_mttr (reconcile 0 rowsC4) = "30m"
    ∧ mttrSpec (reconcile 0 rowsC4) = "31m" := by
  have hrec : reconcile 0 rowsC4 = [incA4, incB4] := by decide
  constructor
  · rw [calculate_mttr_eq_trunc 0 rowsC4, hrec]
    simp only [mttrTruncSpec]
    rw [if_neg (by decide)]
    rw [show List.filter (fun i => i.status == "Closed") [incA4, incB4] = [incA4, incB4]
      from by decide]
    rw [if_neg (by decide : ¬([incA4, incB4].length = 0))]
    simp only [List.map_cons, List.map_nil, closedMinutes_incA4, closedMinutes_incB4]
    rw [if_neg (by decide : ¬((([(60 : ℚ), 61 / 60] : List ℚ).isEmpty) = true))]
    have havg : ([(60 : ℚ), 61 / 60] : List ℚ).sum / (([(60 : ℚ), 61 / 60] : List ℚ).length : ℚ) =
        3661 / 120 := by
      simp [List.sum_cons, List.sum_nil]
      norm_num
    rw [havg, fmtMinutes_low _ (by rw [Int.floor_eq_iff]; norm_num)]
    rw [show ⌊(3661 : ℚ) / 120⌋ = 30 from by rw [Int.floor_eq_iff]; norm_num]
    decide
  · rw [hrec]
    simp only [mttrSpec]
    rw [if_neg (by decide)]
    rw [show List.filter (fun i => i.status == "Closed") [incA4, incB4] = [incA4, incB4]
      from by decide]
    rw [if_neg (by decide : ¬([incA4, incB4].length = 0))]
    simp only [List.map_cons, List.map_nil]
    rw [show ((incA4.end_time - incA4.start_time : ℤ) : ℚ) / 60000 = 3659 / 60 from by
      norm_num [incA4]]
    rw [show ((incB4.end_time - incB4.start_time : ℤ) : ℚ) / 60000 = 61 / 60 from by
      norm_num [incB4]]
    rw [if_neg (by decide : ¬((([(3659 : ℚ) / 60, 61 / 60] : List ℚ).isEmpty) = true))]
    have havg : ([(3659 : ℚ) / 60, 61 / 60] : List ℚ).sum /
        (([(3659 : ℚ) / 60, 61 / 60] : List ℚ).length : ℚ) = 31 := by
      simp [List.sum_cons, List.sum_nil]
      norm_num
    rw [havg, fmtMinutes_low _ (by rw [Int.floor_eq_iff]; norm_num)]
    rw [show ⌊(31 : ℚ)⌋ = 31 from by rw [Int.floor_eq_iff]; norm_num]
    decide

/-- C4 (amended): for every reconciled incident collection, the reported
MTTR equals the average over Closed incidents of `end_time - start_time`
taken in whole seconds, with the seconds component additionally dropped for
incidents lasting an hour or more — the value recovered by re-parsing the
formatted `Duration` strings, which is how the code computes it — then
formatted as `"{h}h {m}m"` / `"{m}m"`.  It differs from the direct raw
average (see the counterexample). -/
theorem C4_mttr_amended (now : Int) (rows : List RawRow) :
    calculate_mttr (reconcile now rows) = mttrTruncSpec (reconcile now rows) :=
  calculate_mttr_eq_trunc now rows

/-! ## Claim C5 -/
/-- C5: on a collection with zero Closed incidents, MTTR returns its
documented sentinel (`"N/A"` for the empty collection, otherwise
`"No resolved alerts yet"`) — the functions are total, so no division by
zero and no exception can occur; and on the empty collection every metric
of the snapshot returns its documented empty sentinel. -/
theorem C5_empty_sentinels (df : List Incident) (label : String)
    (h : ∀ i ∈ df, i.status ≠ "Closed") :
    calculate_mttr df = (if df.isEmpty then "N/A" else "No resolved alerts yet")
    ∧ generate_better_insights [] label =
        { mttr := "N/A", frequency := "N/A", resolution_rate := "0%", top_entities := [],
          trend := "N/A", top_condition := none,
          recommendations := ["No alerts in this period"] }
    ∧ (calculate_mttr [] = "N/A" ∧ get_alert_frequency [] label = "N/A"
        ∧ get_resolution_rate [] = "0%" ∧ get_top_3_entities [] = []
        ∧ calculate_alert_trend [] label = "N/A") := by
  refine ⟨?_, rfl, rfl, rfl, rfl, rfl, rfl⟩
  have hcl : List.filter (fun i => i.status == "Closed") df = [] := by
    rw [List.filter_eq_nil_iff]
    intro i hi
    simpa using h i hi
  simp only [calculate_mttr]
  by_cases hemp : df.isEmpty
  · rw [if_pos hemp, if_pos hemp]
  · rw [if_neg hemp, if_neg hemp, hcl]
    simp

/-- Witness for C5: a one-element, all-Active collection. -/
theorem C5_empty_sentinels_witness :
    (∀ i ∈ [activeInc], i.status ≠ "Closed")
    ∧ (calculate_mttr [activeInc] =
          (if ([activeInc] : List Incident).isEmpty then "N/A" else "No resolved alerts yet")
        ∧ generate_better_insights [] "Last 24 Hours" =
          { mttr := "N/A", frequency := "N/A", resolution_rate := "0%", top_entities := [],
            trend := "N/A", top_condition := none,
            recommendations := ["No alerts in this period"] }
        ∧ (calculate_mttr [] = "N/A" ∧ get_alert_frequency [] "Last 24 Hours" = "N/A"
            ∧ get_resolution_rate [] = "0%" ∧ get_top_3_entities [] = []
            ∧ calculate_alert_trend [] "Last 24 Hours" = "N/A")) :=
  ⟨by decide, C5_empty_sentinels [activeInc] "Last 24 Hours" (by decide)⟩

/-! ## Claim C6 -/
theorem pyRound_bounds {q : ℚ} (h0 : 0 ≤ q) (h100 : q ≤ 100) :
    0 ≤ pyRound q ∧ pyRound q ≤ 100 := by
  have hf0 : (0 : ℤ) ≤ ⌊q⌋ := Int.floor_nonneg.mpr h0
  have hfq : (⌊q⌋ : ℚ) ≤ q := Int.floor_le q
  have hf100 : ⌊q⌋ ≤ 100 := by exact_mod_cast le_trans hfq h100
  simp only [pyRound]
  split_ifs with h1 h2 h3
  · exact ⟨hf0, hf100⟩
  · have hr : 1 / 2 ≤ q - ((⌊q⌋ : ℤ) : ℚ) := le_of_not_lt h1
    have h99 : ⌊q⌋ ≤ 99 := by
      by_contra hc
      push_neg at hc
      have : (100 : ℚ) ≤ ((⌊q⌋ : ℤ) : ℚ) := by exact_mod_cast hc
      linarith
    omega
  · exact ⟨hf0, hf100⟩
  · have hr : 1 / 2 ≤ q - ((⌊q⌋ : ℤ) : ℚ) := le_of_not_lt h1
    have h99 : ⌊q⌋ ≤ 99 := by
      by_contra hc
      push_neg at hc
      have : (100 : ℚ) ≤ ((⌊q⌋ : ℤ) : ℚ) := by exact_mod_cast hc
      linarith
    omega

/-- C6: the resolution rate is `closed / total * 100` rounded to an integer
percent (Python's half-to-even `"{:.0f}"`), is `"0%"` on the empty
collection, and the rendered integer always lies between 0 and 100. -/
theorem C6_resolution_rate (df : List Incident) :
    (df.isEmpty = true → get_resolution_rate df = "0%")
    ∧ ∃ n : ℤ, 0 ≤ n ∧ n ≤ 100
        ∧ get_resolution_rate df = intStr n ++ "%"
        ∧ (df.isEmpty = false →
            n = pyRound (((df.filter (fun i => i.status == "Closed")).length : ℚ) /
              (df.length : ℚ) * 100)) := by
  by_cases hemp : df.isEmpty = true
  · refine ⟨fun _ => ?_, 0, le_refl 0, by norm_num, ?_, fun hf => ?_⟩
    · rw [get_resolution_rate, if_pos hemp]
    · rw [get_resolution_rate, if_pos hemp]
      decide
    · rw [hemp] at hf
      cases hf
  · have hlen : 0 < df.length := by
      rcases df with _ | _
      · exact absurd rfl hemp
      · simp
    have h0 : (0 : ℚ) ≤ ((df.filter (fun i => i.status == "Closed")).length : ℚ) /
        (df.length : ℚ) * 100 := by positivity
    have h100 : ((df.filter (fun i => i.status == "Closed")).length : ℚ) /
        (df.length : ℚ) * 100 ≤ 100 := by
      have hle : ((df.filter (fun i => i.status == "Closed")).length : ℚ) ≤
          (df.length : ℚ) := by
        exact_mod_cast List.length_filter_le _ _
      have hpos : (0 : ℚ) < (df.length : ℚ) := by exact_mod_cast hlen
      rw [div_mul_eq_mul_div, div_le_iff₀ hpos]
      nlinarith
    obtain ⟨hb0, hb100⟩ := pyRound_bounds h0 h100
    refine ⟨fun hf => absurd hf hemp, pyRound _, hb0, hb100, ?_, fun _ => rfl⟩
    rw [get_resolution_rate, if_neg hemp]

/-- Witness for C6: a single Closed incident gives a rendered percent
between 0 and 100 satisfying the formula. -/
theorem C6_resolution_rate_witness :
    ∃ n : ℤ, 0 ≤ n ∧ n ≤ 100
      ∧ get_resolution_rate [closedInc] = intStr n ++ "%"
      ∧ (([closedInc] : List Incident).isEmpty = false →
          n = pyRound ((([closedInc].filter (fun i => i.status == "Closed")).length : ℚ) /
            (([closedInc] : List Incident).length : ℚ) * 100)) :=
  (C6_resolution_rate [closedInc]).2

/-! ## Claim C7 -/
/-- C7 counterexample: a span of exactly 600 seconds formats as `"10m 0s"`
(the sub-hour branch always appends the seconds field), not `"10m"`. -/
theorem C7_counterexample : format_duration (600 * 1000) ≠ "10m" := by
  decide

/-- C7 (amended): for every non-negative whole-second span the formatter
produces `"{s}s"` below 60 s, `"{m}m {s}s"` below one hour and
`"{h}h {m}m"` at or above one hour; in particular a span of exactly 600
seconds formats as `"10m 0s"`. -/
theorem C7_duration_format_amended (s : Int) (h : 0 ≤ s) :
    format_duration (1000 * s) = durationSpecFmt s
    ∧ format_duration (600 * 1000) = "10m 0s" := by
  constructor
  · have hsec : pySecondsOfMs (1000 * s) = s := by
      rw [pySecondsOfMs, if_pos (by omega)]
      omega
    simp only [format_duration, fmtSecs, durationSpecFmt, hsec]
    by_cases h60 : s < 60
    · rw [if_pos h60, if_pos h60]
    · rw [if_neg h60, if_neg h60]
      by_cases h36 : s < 3600
      · rw [if_neg (show ¬(s.toNat / 60 / 60 ≠ 0) by omega), if_pos h36,
          show s.toNat / 60 % 60 = s.toNat / 60 from by omega]
      · rw [if_pos (show s.toNat / 60 / 60 ≠ 0 by omega), if_neg h36,
          show s.toNat / 60 / 60 = s.toNat / 3600 from by omega,
          show s.toNat / 60 % 60 = s.toNat % 3600 / 60 from by omega]
  · decide

/-- Witness for C7 at `s = 600`. -/
theorem C7_duration_format_amended_witness :
    (0 : ℤ) ≤ 600
    ∧ (format_duration (1000 * 600) = durationSpecFmt 600
        ∧ format_duration (600 * 1000) = "10m 0s") :=
  ⟨by decide, C7_duration_format_amended 600 (by decide)⟩

/-! ## Claim C8 -/
/-- C8 (code bug, evaluated): an Active incident opened at `t = 10000` ms
read at `now = 5000` ms (clock skew) is rendered with the negative duration
string `"-5s"` — nothing rejects or clamps the negative span before
`format_duration`, whose `s < 60` branch passes the negative value straight
into `"{s}s"`. -/
theorem C8_negative_duration_emitted :
    (reconcile 5000 [mkEventRow exKey 10000 "open"]).map Incident.duration = ["-5s"]
    ∧ format_duration (-5000) = "-5s" :=
  ⟨by decide, by decide⟩

/-! ## Claim C9 -/
theorem string_append_assoc (a b c : String) : a ++ b ++ c = a ++ (b ++ c) :=
  string_eq_of_data _ _ (by
    rw [str_data_append, str_data_append, str_data_append, str_data_append,
      List.append_assoc])

/-- C9: alert frequency is the total count divided via the fixed label
lookup table (first matching entry, substring match, in code order), and an
unsupported label falls back to `"{total} total"` with no computed rate; the
empty collection gives `"N/A"`. -/
theorem C9_frequency_lookup (df : List Incident) (label : String) :
    (df.isEmpty = true → get_alert_frequency df label = "N/A")
    ∧ (df.isEmpty = false →
        get_alert_frequency df label = freqFromTable df.length label) := by
  constructor
  · intro h
    rw [get_alert_frequency, if_pos h]
  · intro h
    rw [get_alert_frequency, if_neg (by simp [h])]
    simp only [freqFromTable, freqLookup, freqTable]
    by_cases h6 : strContains label "6 Hours" = true
    · rw [List.find?_cons_of_pos _ (by simpa using h6), if_pos h6]
      simp only [Option.map_some']
      rw [string_append_assoc]
      norm_num
      rfl
    · rw [List.find?_cons_of_neg _ (by simpa using h6), if_neg h6]
      by_cases h24 : strContains label "24 Hours" = true
      · rw [List.find?_cons_of_pos _ (by simpa using h24), if_pos h24]
        simp only [Option.map_some']
        rw [string_append_assoc]
        norm_num
        rfl
      · rw [List.find?_cons_of_neg _ (by simpa using h24), if_neg h24]
        by_cases h7 : strContains label "7 Days" = true
        · rw [List.find?_cons_of_pos _ (by simpa using h7), if_pos h7]
          simp only [Option.map_some']
          rw [string_append_assoc]
          norm_num
          rfl
        · rw [List.find?_cons_of_neg _ (by simpa using h7), if_neg h7]
          by_cases h1m : strContains label "1 Month" = true
          · rw [List.find?_cons_of_pos _ (by simpa using h1m), if_pos h1m]
            simp only [Option.map_some']
            rw [string_append_assoc]
            norm_num
            rfl
          · rw [List.find?_cons_of_neg _ (by simpa using h1m), if_neg h1m]
            by_cases h3m : strContains label "3 Months" = true
            · rw [List.find?_cons_of_pos _ (by simpa using h3m), if_pos h3m]
              simp only [Option.map_some']
              rw [string_append_assoc]
              norm_num
              rfl
            · rw [List.find?_cons_of_neg _ (by simpa using h3m), List.find?_nil,
                if_neg h3m]
              rfl

/-- Witness for C9: a one-element collection and an unsupported label. -/
theorem C9_frequency_lookup_witness :
    (([closedInc] : List Incident).isEmpty = false)
    ∧ get_alert_frequency [closedInc] "Last 2 Weeks" =
        freqFromTable ([closedInc] : List Incident).length "Last 2 Weeks" :=
  ⟨by decide, (C9_frequency_lookup [closedInc] "Last 2 Weeks").2 (by decide)⟩

/-! ## Claim C10 -/
/-- C10: rows with any missing (`NaN`) grouping-key component are silently
dropped by the groupby — reconciling is unchanged by removing them, and
prepending such a row changes nothing. -/
theorem C10_missing_key_rows_excluded (now : Int) (rows : List RawRow) :
    reconcile now rows = reconcile now (rows.filter (fun r => (rowKey r).isSome))
    ∧ (∀ r : RawRow, rowKey r = none → reconcile now (r :: rows) = reconcile now rows) := by
  constructor
  · unfold reconcile
    rw [keysOf_filter_some]
    exact (List.map_congr_left fun k _ => by rw [groupRows_filter_some]).symm
  · intro r hr
    unfold reconcile
    rw [show keysOf (r :: rows) = keysOf rows from by
      unfold keysOf
      rw [List.filterMap_cons_none hr]]
    apply List.map_congr_left
    intro k _
    rw [groupRows_cons, if_neg (by simp [hr])]

/-- Witness for C10: a row with a missing `conditionName` contributes
nothing. -/
theorem C10_missing_key_rows_excluded_witness :
    rowKey noneRow = none
    ∧ reconcile 0 (noneRow :: [mkEventRow exKey 0 "open"]) =
        reconcile 0 [mkEventRow exKey 0 "open"] :=
  ⟨rfl, (C10_missing_key_rows_excluded 0 [mkEventRow exKey 0 "open"]).2 noneRow rfl⟩

end Alerts

